import Mathlib

/-!
Verification development for the fantasy-life draft scheduler.

The client-side draft page (src/app/draft/page.tsx) is embedded shallowly:
its pure helpers (snakeManager, taskKey, dpKey, lookupGoalTitle, the
pickTask validation gate, the myRoster derivation, the autopick button
guard) are translated directly from the source.  The server-side remote
procedures (draft_start, draft_make_pick, draft_autopick) are not part of
the repository sources; they are modelled from the specification and are
marked as such in their doc comments.
-/

/-- Goal cadence, from the `Timeframe` union type of src/app/draft/page.tsx. -/
inductive Timeframe where
  | weekly
  | monthly
  | yearly
deriving DecidableEq

/-- From src/app/draft/page.tsx line 10:
`const SLOT_COUNTS = { weekly: 3, monthly: 2, yearly: 2 }`. -/
def SLOT_COUNTS : Timeframe → Nat
  | .weekly => 3
  | .monthly => 2
  | .yearly => 2

/-- From src/app/draft/page.tsx line 11: `const PICKS_PER_MANAGER = 7`. -/
def PICKS_PER_MANAGER : Nat := 7

/-- Draft status, from the `DraftState` type of src/app/draft/page.tsx. -/
inductive Status where
  | not_started
  | active
  | done
deriving DecidableEq

/-- Draft state row, from the `DraftState` type of src/app/draft/page.tsx
(the constant `league_id` is dropped; timestamps are modelled as `Nat`). -/
structure DraftState where
  status : Status
  pick_number : Nat
  pick_deadline : Option Nat
deriving DecidableEq

/-- League membership row, from the `LeagueMember` type of the draft page. -/
structure LeagueMember where
  league_id : String
  user_id : String
deriving DecidableEq

/-- Task row, from the `TaskRow` type of src/app/draft/page.tsx. -/
structure TaskRow where
  user_id : String
  timeframe : Timeframe
  slot_index : Nat
  title : String
  done_at : Option Nat
deriving DecidableEq

/-- Committed draft pick row, from the `DraftPick` type of
src/app/draft/page.tsx (constant `league_id` dropped, timestamp as `Nat`). -/
structure DraftPick where
  pick_number : Nat
  manager_id : String
  drafted_user_id : String
  timeframe : Timeframe
  slot_index : Nat
  created_at : Nat
deriving DecidableEq

/-- The string form of a cadence, as it appears in the source literals. -/
def tfString : Timeframe → String
  | .weekly => "weekly"
  | .monthly => "monthly"
  | .yearly => "yearly"

/-- From src/app/draft/page.tsx lines 67-69: the board key of a task. -/
def taskKey (t : TaskRow) : String :=
  t.user_id ++ "|" ++ tfString t.timeframe ++ "|" ++ toString t.slot_index

/-- From src/app/draft/page.tsx lines 70-72: the key of a committed pick. -/
def dpKey (p : DraftPick) : String :=
  p.drafted_user_id ++ "|" ++ tfString p.timeframe ++ "|" ++ toString p.slot_index

/-- From src/app/draft/page.tsx lines 45-51: the snake-order function.
`n = 0` yields `none` (the source returns `null`); otherwise the round is
`pickNumber / n`, the offset is `pickNumber % n`, and an even round reads
the ascending roster while an odd round reads its reversal. -/
def snakeManager (membersAsc : List String) (pickNumber : Nat) : Option String :=
  let n := membersAsc.length
  if n = 0 then none
  else
    let round := pickNumber / n
    let within := pickNumber % n
    if round % 2 = 0 then membersAsc[within]? else membersAsc.reverse[within]?

/-- From src/app/draft/page.tsx lines 143-148 (fetchMembers): the roster the
page passes to `snakeManager` is the league-member user ids sorted ascending. -/
def memberIds (rows : List LeagueMember) : List String :=
  (rows.map (fun r => r.user_id)).mergeSort (· ≤ ·)

/-- From src/app/draft/page.tsx lines 271-274 (the currentManager memo):
`null` while the state has not loaded, otherwise the snake manager at the
state's cursor. -/
def currentManager (members : List String) (state : Option DraftState) : Option String :=
  match state with
  | none => none
  | some st => snakeManager members st.pick_number

/-- From src/app/draft/page.tsx lines 279-283: the set of drafted keys. -/
def draftedSet (picks : List DraftPick) : List String :=
  picks.map dpKey

/-- From src/app/draft/page.tsx lines 74-77: title lookup for a drafted slot,
with the placeholder `(goal slot i+1)` when the task is missing. -/
def lookupGoalTitle (tasks : List TaskRow) (draftedUserId : String)
    (tf : Timeframe) (slotIndex : Nat) : String :=
  match tasks.find? (fun t =>
      decide (t.user_id = draftedUserId ∧ t.timeframe = tf ∧ t.slot_index = slotIndex)) with
  | some t => t.title
  | none => "(goal slot " ++ toString (slotIndex + 1) ++ ")"

/-- The in-flight operation marker, from the `pending` state of the page. -/
inductive PendingKind where
  | start
  | autopick
  | pick
deriving DecidableEq

/-- Outcome of the client pickTask gate (src/app/draft/page.tsx lines
374-408): each early return is one constructor, in source order, and
`rpcPick` is the final branch that invokes the remote draft_make_pick. -/
inductive PickOutcome where
  | alreadyDrafted
  | stillLoading
  | draftNotActiveMsg (st : Status)
  | busy
  | notYourTurn (clock : Option String)
  | rpcPick (drafted_user_id : String) (tf : Timeframe) (slot_index : Nat)
deriving DecidableEq

/-- The client component state that pickTask reads. -/
structure ClientCtx where
  members : List String
  state : Option DraftState
  picks : List DraftPick
  pending : Option PendingKind
  activeUser : String

/-- From src/app/draft/page.tsx lines 374-408: the pickTask validation gate,
with its checks in source order: already-drafted, state still loading,
status not active, an operation pending, not your turn; only then is the
remote draft_make_pick procedure invoked. -/
def pickTask (ctx : ClientCtx) (t : TaskRow) : PickOutcome :=
  if (draftedSet ctx.picks).contains (taskKey t) then .alreadyDrafted
  else
    match ctx.state with
    | none => .stillLoading
    | some st =>
      if st.status ≠ .active then .draftNotActiveMsg st.status
      else if ctx.pending.isSome then .busy
      else
        let clock := snakeManager ctx.members st.pick_number
        if clock ≠ some ctx.activeUser then .notYourTurn clock
        else .rpcPick t.user_id t.timeframe t.slot_index

/-- From src/app/draft/page.tsx line 650: the autopick button is disabled
whenever an operation is pending or the status is not active. -/
def autopickDisabled (pending : Option PendingKind) (state : Option DraftState) : Bool :=
  pending.isSome || decide (state.map (fun s => s.status) ≠ some Status.active)

/-- From src/app/draft/page.tsx line 269: total picks of a draft. -/
def totalPicks (members : List String) : Nat :=
  members.length * PICKS_PER_MANAGER

/-- One entry of the derived roster view, from the record literal built in
the myRoster memo (src/app/draft/page.tsx lines 304-332). -/
structure RosterEntry where
  timeframe : Timeframe
  roster_slot_index : Nat
  filled : Bool
  player_id : Option String
  goal_title : Option String
deriving DecidableEq

/-- The empty roster template of the myRoster memo: three weekly, two
monthly and two yearly entries, in that order, all unfilled. -/
def rosterTemplate : List RosterEntry :=
  [Timeframe.weekly, Timeframe.monthly, Timeframe.yearly].flatMap (fun tf =>
    (List.range (SLOT_COUNTS tf)).map (fun i =>
      { timeframe := tf
        roster_slot_index := i
        filled := false
        player_id := none
        goal_title := none }))

/-- One filling step of the myRoster memo: the first unfilled entry of the
pick's cadence receives the pick; when none remains the pick is skipped
(the source's `if (!slot) continue`). -/
def fillSlot (tasks : List TaskRow) (l : List RosterEntry) (p : DraftPick) : List RosterEntry :=
  match l with
  | [] => []
  | e :: rest =>
    if e.timeframe = p.timeframe ∧ e.filled = false then
      { e with
        filled := true
        player_id := some p.drafted_user_id
        goal_title := some (lookupGoalTitle tasks p.drafted_user_id p.timeframe p.slot_index) }
        :: rest
    else e :: fillSlot tasks rest p

/-- The active user's picks, sorted ascending by pick number, as the
myRoster memo computes them. -/
def minePicks (picks : List DraftPick) (activeUser : String) : List DraftPick :=
  (picks.filter (fun p => decide (p.manager_id = activeUser))).mergeSort
    (fun a b => decide (a.pick_number ≤ b.pick_number))

/-- From src/app/draft/page.tsx lines 304-332: the derived per-manager
roster view: the fixed 7-entry template, filled in ascending pick-number
order by the active user's picks. -/
def myRoster (picks : List DraftPick) (activeUser : String) (tasks : List TaskRow) :
    List RosterEntry :=
  (minePicks picks activeUser).foldl (fillSlot tasks) rosterTemplate

/-- Reference to one draftable goal slot: the (owner, cadence, slot_index)
triple of the data model. -/
structure SlotRef where
  owner : String
  cadence : Timeframe
  slot_index : Nat
deriving DecidableEq

/-- The slot a committed pick drafted. -/
def dpSlot (p : DraftPick) : SlotRef :=
  { owner := p.drafted_user_id, cadence := p.timeframe, slot_index := p.slot_index }

/-- Modelled from the spec: the authoritative per-league server state the
remote procedures act on (the draft_state row, the draft_picks rows and
the frozen roster); the procedures themselves are not in the sources. -/
structure ServerState where
  roster : List String
  status : Status
  pick_number : Nat
  pick_deadline : Option Nat
  picks : List DraftPick
deriving DecidableEq

/-- Rejection reasons of the remote procedures, from the validation
taxonomy of the spec. -/
inductive PickErr where
  | notActive
  | alreadyDrafted
  | notYourTurn
  | unknownSlot
  | noManager
  | noSlotLeft
deriving DecidableEq

/-- Result of a remote procedure call. -/
inductive RpcResult where
  | ok
  | err (e : PickErr)
deriving DecidableEq

/-- Whether a slot already appears in a committed pick. -/
def slotDrafted (picks : List DraftPick) (slot : SlotRef) : Bool :=
  picks.any (fun p => decide (dpSlot p = slot))

/-- Modelled from the spec: a slot is draftable when its owner is on the
roster and its index is below the cadence capacity (unknown slots are
rejected as invalid input). -/
def inCatalogue (roster : List String) (slot : SlotRef) : Bool :=
  roster.contains slot.owner && decide (slot.slot_index < SLOT_COUNTS slot.cadence)

/-- Modelled from the spec: the league-wide slot catalogue, in ascending
(owner, cadence, slot_index) order over the roster. -/
def catalogue (roster : List String) : List SlotRef :=
  roster.flatMap (fun owner =>
    [Timeframe.weekly, Timeframe.monthly, Timeframe.yearly].flatMap (fun tf =>
      (List.range (SLOT_COUNTS tf)).map (fun i =>
        { owner := owner, cadence := tf, slot_index := i })))

/-- Modelled from the spec: the shared successful-commit path of the pick
transaction and the autopick resolver: append the pick at the current
cursor, advance the cursor, then either reset the deadline or, when the
cursor reaches roster_size * 7, move to done and clear the deadline. -/
def commitPick (s : ServerState) (mgr : String) (slot : SlotRef) (now budget : Nat) :
    ServerState :=
  let newPick : DraftPick :=
    { pick_number := s.pick_number
      manager_id := mgr
      drafted_user_id := slot.owner
      timeframe := slot.cadence
      slot_index := slot.slot_index
      created_at := now }
  let np := s.pick_number + 1
  if np < totalPicks s.roster then
    { s with
      picks := s.picks ++ [newPick]
      pick_number := np
      pick_deadline := some (now + budget) }
  else
    { s with
      picks := s.picks ++ [newPick]
      pick_number := np
      status := .done
      pick_deadline := none }

/-- Modelled from the spec: the draft_make_pick remote procedure (the pick
transaction), absent from the sources; validation in the spec's order:
draft not active, slot already drafted, not your turn, unknown slot. -/
def draft_make_pick (s : ServerState) (mgr : String) (slot : SlotRef) (now budget : Nat) :
    ServerState × RpcResult :=
  if s.status ≠ .active then (s, .err .notActive)
  else if slotDrafted s.picks slot then (s, .err .alreadyDrafted)
  else if snakeManager s.roster s.pick_number ≠ some mgr then (s, .err .notYourTurn)
  else if ¬ inCatalogue s.roster slot then (s, .err .unknownSlot)
  else (commitPick s mgr slot now budget, .ok)

/-- Modelled from the spec: the draft_start remote procedure, absent from
the sources; it clears all committed picks, sets status active and cursor
zero, and sets the deadline to now plus the per-pick budget. -/
def draft_start (s : ServerState) (now budget : Nat) : ServerState :=
  { s with
    status := .active
    pick_number := 0
    pick_deadline := some (now + budget)
    picks := [] }

/-- Modelled from the spec: the draft_autopick remote procedure, absent
from the sources; a no-op error unless active, otherwise it commits the
lowest undrafted catalogue slot for the manager on the clock through the
same commit path as the pick transaction. -/
def draft_autopick (s : ServerState) (now budget : Nat) : ServerState × RpcResult :=
  if s.status ≠ .active then (s, .err .notActive)
  else
    match snakeManager s.roster s.pick_number with
    | none => (s, .err .noManager)
    | some mgr =>
      match (catalogue s.roster).find? (fun slot => ¬ slotDrafted s.picks slot) with
      | none => (s, .err .noSlotLeft)
      | some slot => (commitPick s mgr slot now budget, .ok)

/-- One state-machine step: any invocation of a remote procedure, at any
time and with any arguments (rejected invocations leave the state as the
procedures return it, unchanged). -/
inductive Step : ServerState → ServerState → Prop where
  | startOp (s : ServerState) (now budget : Nat) : Step s (draft_start s now budget)
  | pickOp (s : ServerState) (mgr : String) (slot : SlotRef) (now budget : Nat) :
      Step s (draft_make_pick s mgr slot now budget).1
  | autoOp (s : ServerState) (now budget : Nat) :
      Step s (draft_autopick s now budget).1

/-- Reachability along state-machine steps. -/
def Reach : ServerState → ServerState → Prop :=
  Relation.ReflTransGen Step

/-- The events of the whole system: a countdown tick of the client timer,
or an invocation of one of the three remote procedures. -/
inductive SysEvent where
  | tick (t : Nat)
  | startOp (now budget : Nat)
  | pickOp (mgr : String) (slot : SlotRef) (now budget : Nat)
  | autoOp (now budget : Nat)

/-- The whole-system state: the authoritative server state plus the
client's displayed clock (the nowTick state of the page). -/
structure SysState where
  server : ServerState
  nowTick : Nat

/-- The whole-system step function.  The tick branch is from
src/app/draft/page.tsx lines 123-127: the interval handler only stores the
current time for the countdown display; the other branches invoke the
spec-modelled remote procedures. -/
def sysStep (s : SysState) : SysEvent → SysState
  | .tick t => { s with nowTick := t }
  | .startOp now budget => { s with server := draft_start s.server now budget }
  | .pickOp mgr slot now budget =>
      { s with server := (draft_make_pick s.server mgr slot now budget).1 }
  | .autoOp now budget => { s with server := (draft_autopick s.server now budget).1 }

/-- The effect on the server of one client pickTask invocation: the remote
pick transaction runs only when every client-side check passed (the
`rpcPick` outcome); every rejected outcome performs no remote call. -/
def pickTaskEffect (sv : ServerState) (ctx : ClientCtx) (t : TaskRow) (now budget : Nat) :
    ServerState :=
  match pickTask ctx t with
  | .rpcPick u tf i =>
      (draft_make_pick sv ctx.activeUser { owner := u, cadence := tf, slot_index := i }
        now budget).1
  | _ => sv

lemma string_le_trans (a b c : String) : (decide (a ≤ b)) = true → (decide (b ≤ c)) = true →
    (decide (a ≤ c)) = true := by
  simp only [decide_eq_true_eq]
  exact le_trans

lemma string_le_total (a b : String) : (decide (a ≤ b) || decide (b ≤ a)) = true := by
  simp only [Bool.or_eq_true, decide_eq_true_eq]
  exact le_total a b

/-- C1: for a nonempty roster, the snake-order function returns the
ascending roster at `p mod n` on an even round `p / n` and the reversed
roster at `p mod n` on an odd round; for the empty roster it returns
`none`; and the roster the page passes in is the league-member id list
sorted ascending (a sorted permutation of the member ids). -/
theorem snake_order_spec :
    (∀ (roster : List String) (p : Nat), roster ≠ [] →
      snakeManager roster p =
        some (if (p / roster.length) % 2 = 0
          then roster.getD (p % roster.length) ""
          else roster.reverse.getD (p % roster.length) ""))
    ∧ (∀ p : Nat, snakeManager ([] : List String) p = none)
    ∧ (∀ rows : List LeagueMember,
        List.Sorted (· ≤ ·) (memberIds rows)
        ∧ (memberIds rows).Perm (rows.map (fun r => r.user_id))) := by
  refine ⟨?_, ?_, ?_⟩
  · intro roster p hne
    have hn : roster.length ≠ 0 := fun h => hne (List.length_eq_zero.mp h)
    have hlt : p % roster.length < roster.length := Nat.mod_lt _ (Nat.pos_of_ne_zero hn)
    have hltr : p % roster.length < roster.reverse.length := by
      simpa using hlt
    by_cases hr : (p / roster.length) % 2 = 0
    · simp [snakeManager, hn, hr, List.getElem?_eq_getElem hlt, List.getD_eq_getElem _ _ hlt]
    · simp [snakeManager, hn, hr, List.getElem?_eq_getElem hltr,
        List.getD_eq_getElem _ _ hltr]
  · intro p
    simp [snakeManager]
  · intro rows
    constructor
    · have h := @List.sorted_mergeSort String (fun a b : String => decide (a ≤ b))
        string_le_trans string_le_total (rows.map (fun r => r.user_id))
      exact List.Pairwise.imp (fun h => by simpa using h) h
    · exact List.mergeSort_perm _ _

/-- Witness for C1 at a concrete roster and pick number. -/
theorem snake_order_spec_witness : snakeManager ["alex", "bob"] 3 = some "alex" := by
  have h := snake_order_spec.1 ["alex", "bob"] 3 (by decide)
  rw [h]
  decide

/-- C8: the on-clock sequence is periodic with period `2 n` for every
nonempty roster, repeated calls with identical inputs agree, and for the
roster `[a, b, c]` the managers at picks 0..5 are a, b, c, c, b, a. -/
theorem snake_order_period :
    (∀ (R : List String) (p : Nat), R ≠ [] →
      snakeManager R p = snakeManager R (p + 2 * R.length))
    ∧ (∀ (R : List String) (p : Nat), snakeManager R p = snakeManager R p)
    ∧ (snakeManager ["a", "b", "c"] 0 = some "a"
      ∧ snakeManager ["a", "b", "c"] 1 = some "b"
      ∧ snakeManager ["a", "b", "c"] 2 = some "c"
      ∧ snakeManager ["a", "b", "c"] 3 = some "c"
      ∧ snakeManager ["a", "b", "c"] 4 = some "b"
      ∧ snakeManager ["a", "b", "c"] 5 = some "a") := by
  refine ⟨?_, fun R p => rfl, by decide⟩
  intro R p hne
  have hn : R.length ≠ 0 := fun h => hne (List.length_eq_zero.mp h)
  have hmod : (p + 2 * R.length) % R.length = p % R.length :=
    Nat.add_mul_mod_self_right p 2 R.length
  have hdiv : (p + 2 * R.length) / R.length = p / R.length + 2 := by
    rw [Nat.mul_comm]
    exact Nat.add_mul_div_left p 2 (Nat.pos_of_ne_zero hn)
  have hpar : (p / R.length + 2) % 2 = (p / R.length) % 2 := Nat.add_mod_right _ 2
  simp [snakeManager, hn, hmod, hdiv, hpar]

/-- Witness for C8 at a concrete roster and pick number. -/
theorem snake_order_period_witness :
    snakeManager ["a", "b"] 1 = snakeManager ["a", "b"] 5 := by
  have h := snake_order_period.1 ["a", "b"] 1 (by decide)
  simpa using h

/-- A concrete task on the draft board: alex, weekly, slot 0. -/
def taskA : TaskRow :=
  { user_id := "alex", timeframe := .weekly, slot_index := 0, title := "run", done_at := none }

/-- A concrete committed pick of that same slot. -/
def pickA : DraftPick :=
  { pick_number := 0, manager_id := "bob", drafted_user_id := "alex", timeframe := .weekly,
    slot_index := 0, created_at := 0 }

/-- A concrete client context in which the drafted-slot check and the
not-active check both fail at once: the draft is not started and the
chosen slot is already drafted. -/
def ctxDraftedNotActive : ClientCtx :=
  { members := ["alex", "bob"]
    state := some { status := .not_started, pick_number := 0, pick_deadline := none }
    picks := [pickA]
    pending := none
    activeUser := "alex" }

/-- Counterexample to C2 as stated: with the draft not active and the slot
already drafted, the code reports the already-drafted rejection, not the
draft-not-active rejection the claimed check order would make the earliest
failing one. -/
theorem pick_gate_order_counterexample :
    pickTask ctxDraftedNotActive taskA = .alreadyDrafted
    ∧ ctxDraftedNotActive.state =
        some { status := .not_started, pick_number := 0, pick_deadline := none }
    ∧ Status.not_started ≠ Status.active
    ∧ PickOutcome.alreadyDrafted ≠ .draftNotActiveMsg .not_started := by
  refine ⟨by decide, rfl, by decide, by decide⟩

/-- C2 amended: the pickTask gate checks, in source order, slot already
drafted, state still loading, draft not active, operation pending, not
your turn; each invocation reports the earliest failing check in that
order, and only when all pass does it invoke the pick transaction. -/
theorem pick_gate_order (ctx : ClientCtx) (t : TaskRow) :
    ((draftedSet ctx.picks).contains (taskKey t) = true →
      pickTask ctx t = .alreadyDrafted)
    ∧ ((draftedSet ctx.picks).contains (taskKey t) = false → ctx.state = none →
      pickTask ctx t = .stillLoading)
    ∧ (∀ st, (draftedSet ctx.picks).contains (taskKey t) = false → ctx.state = some st →
      st.status ≠ .active → pickTask ctx t = .draftNotActiveMsg st.status)
    ∧ (∀ st, (draftedSet ctx.picks).contains (taskKey t) = false → ctx.state = some st →
      st.status = .active → ctx.pending.isSome = true → pickTask ctx t = .busy)
    ∧ (∀ st, (draftedSet ctx.picks).contains (taskKey t) = false → ctx.state = some st →
      st.status = .active → ctx.pending = none →
      snakeManager ctx.members st.pick_number ≠ some ctx.activeUser →
      pickTask ctx t = .notYourTurn (snakeManager ctx.members st.pick_number))
    ∧ (∀ st, (draftedSet ctx.picks).contains (taskKey t) = false → ctx.state = some st →
      st.status = .active → ctx.pending = none →
      snakeManager ctx.members st.pick_number = some ctx.activeUser →
      pickTask ctx t = .rpcPick t.user_id t.timeframe t.slot_index) := by
  refine ⟨?_, ?_, ?_, ?_, ?_, ?_⟩
  · intro hd
    simp at hd
    simp [pickTask, hd]
  · intro hd hs
    simp at hd
    simp [pickTask, hd, hs]
  · intro st hd hs hst
    simp at hd
    simp [pickTask, hd, hs, hst]
  · intro st hd hs hst hp
    simp at hd
    simp [pickTask, hd, hs, hst, hp]
  · intro st hd hs hst hp hturn
    simp at hd
    simp [pickTask, hd, hs, hst, hp, hturn]
  · intro st hd hs hst hp hturn
    simp at hd
    simp [pickTask, hd, hs, hst, hp, hturn]

/-- Witness for C2 amended at concrete contexts: the drafted check fires
first, and on an undrafted slot with an inactive draft the not-active
check fires. -/
theorem pick_gate_order_witness :
    pickTask ctxDraftedNotActive taskA = .alreadyDrafted
    ∧ pickTask { ctxDraftedNotActive with picks := [] } taskA =
        .draftNotActiveMsg .not_started := by
  constructor
  · exact (pick_gate_order ctxDraftedNotActive taskA).1 (by decide)
  · exact (pick_gate_order { ctxDraftedNotActive with picks := [] } taskA).2.2.1
      { status := .not_started, pick_number := 0, pick_deadline := none }
      (by decide) rfl (by decide)

/-- A concrete context in which it is not bob's turn (alex is on the clock
at pick 0) and the draft is not active. -/
def ctxNotActiveWrongTurn : ClientCtx :=
  { members := ["alex", "bob"]
    state := some { status := .not_started, pick_number := 0, pick_deadline := none }
    picks := []
    pending := none
    activeUser := "bob" }

/-- Counterexample to C3 as stated: the manager on the clock differs from
the acting manager, yet the rejection reported is the not-active one, not
the not-your-turn one (the not-active check runs first). -/
theorem turn_enforcement_counterexample :
    snakeManager ctxNotActiveWrongTurn.members 0 ≠ some ctxNotActiveWrongTurn.activeUser
    ∧ pickTask ctxNotActiveWrongTurn taskA = .draftNotActiveMsg .not_started
    ∧ pickTask ctxNotActiveWrongTurn taskA ≠
        .notYourTurn (snakeManager ctxNotActiveWrongTurn.members 0) := by
  refine ⟨by decide, by decide, by decide⟩

/-- C3 amended: when the earlier gate checks pass — the slot is not yet
drafted, the state is loaded and active, and no call is pending — an
acting manager who is not on the clock always receives the not-your-turn
rejection, and the invocation performs no remote call, so the draft state
and the pick list are unchanged. -/
theorem turn_enforcement (ctx : ClientCtx) (t : TaskRow) (st : DraftState)
    (hd : (draftedSet ctx.picks).contains (taskKey t) = false)
    (hs : ctx.state = some st) (ha : st.status = .active) (hp : ctx.pending = none)
    (hturn : snakeManager ctx.members st.pick_number ≠ some ctx.activeUser) :
    pickTask ctx t = .notYourTurn (snakeManager ctx.members st.pick_number)
    ∧ ∀ sv now budget, pickTaskEffect sv ctx t now budget = sv := by
  simp at hd
  have hout : pickTask ctx t = .notYourTurn (snakeManager ctx.members st.pick_number) := by
    simp [pickTask, hd, hs, ha, hp, hturn]
  refine ⟨hout, ?_⟩
  intro sv now budget
  simp [pickTaskEffect, hout]

/-- Witness for C3 amended at a concrete context: bob acts while alex is
on the clock of an active draft, and nothing changes. -/
theorem turn_enforcement_witness :
    pickTask
        { members := ["alex", "bob"]
          state := some { status := .active, pick_number := 0, pick_deadline := none }
          picks := []
          pending := none
          activeUser := "bob" } taskA = .notYourTurn (some "alex")
    ∧ pickTaskEffect
        { roster := ["alex", "bob"], status := .active, pick_number := 0,
          pick_deadline := none, picks := [] }
        { members := ["alex", "bob"]
          state := some { status := .active, pick_number := 0, pick_deadline := none }
          picks := []
          pending := none
          activeUser := "bob" } taskA 0 0 =
        { roster := ["alex", "bob"], status := .active, pick_number := 0,
          pick_deadline := none, picks := [] } := by
  have h := turn_enforcement
    { members := ["alex", "bob"]
      state := some { status := .active, pick_number := 0, pick_deadline := none }
      picks := []
      pending := none
      activeUser := "bob" } taskA
    { status := .active, pick_number := 0, pick_deadline := none }
    (by decide) rfl rfl rfl (by decide)
  refine ⟨?_, h.2 _ 0 0⟩
  have h1 := h.1
  rw [h1]
  decide

lemma slotDrafted_eq_false {picks : List DraftPick} {slot : SlotRef} :
    slotDrafted picks slot = false ↔ slot ∉ picks.map dpSlot := by
  simp only [slotDrafted, List.any_eq_false, decide_eq_true_eq, List.mem_map]
  constructor
  · rintro h ⟨p, hp, rfl⟩
    exact h p hp rfl
  · intro h p hp hps
    exact h ⟨p, hp, hps⟩

lemma length_catalogue (roster : List String) :
    (catalogue roster).length = totalPicks roster := by
  induction roster with
  | nil => simp [catalogue, totalPicks]
  | cons o rest ih =>
    simp only [catalogue, List.flatMap_cons, List.length_append] at *
    rw [ih]
    simp [totalPicks, PICKS_PER_MANAGER, SLOT_COUNTS, Nat.succ_mul]
    omega

lemma mem_catalogue_iff (roster : List String) (slot : SlotRef) :
    slot ∈ catalogue roster ↔
      slot.owner ∈ roster ∧ slot.slot_index < SLOT_COUNTS slot.cadence := by
  simp only [catalogue, List.mem_flatMap, List.mem_map, List.mem_range]
  constructor
  · rintro ⟨o, ho, tf, htf, i, hi, rfl⟩
    exact ⟨ho, hi⟩
  · rintro ⟨ho, hi⟩
    refine ⟨slot.owner, ho, slot.cadence, ?_, slot.slot_index, hi, rfl⟩
    cases slot.cadence <;> simp

lemma inCatalogue_iff (roster : List String) (slot : SlotRef) :
    inCatalogue roster slot = true ↔ slot ∈ catalogue roster := by
  simp [inCatalogue, mem_catalogue_iff]

/-- The invariant the remote procedures maintain: pick numbers are dense
from zero, drafted slots are pairwise distinct and all belong to the
catalogue, and a finished draft has its cursor at roster_size * 7. -/
structure DraftInv (s : ServerState) : Prop where
  nums : s.picks.map DraftPick.pick_number = List.range s.pick_number
  nodup : (s.picks.map dpSlot).Nodup
  inCat : ∀ p ∈ s.picks, dpSlot p ∈ catalogue s.roster
  doneTotal : s.status = Status.done → s.pick_number = totalPicks s.roster

lemma draftInv_start (s : ServerState) (now budget : Nat) :
    DraftInv (draft_start s now budget) := by
  refine ⟨?_, ?_, ?_, ?_⟩ <;> simp [draft_start]

lemma draftInv_commit {s : ServerState} (mgr : String) (slot : SlotRef) (now budget : Nat)
    (h : DraftInv s) (hact : s.status = Status.active)
    (hund : slotDrafted s.picks slot = false)
    (hcat : inCatalogue s.roster slot = true) :
    DraftInv (commitPick s mgr slot now budget) := by
  have hlen : s.picks.length = s.pick_number := by
    have hc := congrArg List.length h.nums
    simpa using hc
  have hnotmem : slot ∉ s.picks.map dpSlot := slotDrafted_eq_false.mp hund
  have hnodup2 : (s.picks.map dpSlot ++ [slot]).Nodup := by
    rw [List.nodup_append]
    refine ⟨h.nodup, List.nodup_singleton slot, ?_⟩
    intro x hx hxs
    rw [List.mem_singleton] at hxs
    exact hnotmem (hxs ▸ hx)
  have hsub2 : (s.picks.map dpSlot ++ [slot]) ⊆ catalogue s.roster := by
    intro x hx
    rcases List.mem_append.mp hx with hx | hx
    · rcases List.mem_map.mp hx with ⟨p, hp, rfl⟩
      exact h.inCat p hp
    · rw [List.mem_singleton] at hx
      exact hx ▸ (inCatalogue_iff s.roster slot).mp hcat
  have hineq : s.pick_number + 1 ≤ totalPicks s.roster := by
    have hle := (List.subperm_of_subset hnodup2 hsub2).length_le
    rw [length_catalogue] at hle
    simpa [hlen] using hle
  by_cases hnp : s.pick_number + 1 < totalPicks s.roster
  · refine ⟨?_, ?_, ?_, ?_⟩
    · simp [commitPick, hnp, h.nums, List.range_succ]
    · simpa [commitPick, hnp, dpSlot] using hnodup2
    · intro p hp
      simp only [commitPick, hnp, if_true] at hp ⊢
      rcases List.mem_append.mp hp with hp | hp
      · exact h.inCat p hp
      · rw [List.mem_singleton] at hp
        subst hp
        exact (inCatalogue_iff s.roster slot).mp hcat
    · intro hd
      simp only [commitPick, hnp, if_true] at hd
      rw [hact] at hd
      exact absurd hd (by decide)
  · have heq : s.pick_number + 1 = totalPicks s.roster := by omega
    refine ⟨?_, ?_, ?_, ?_⟩
    · simp [commitPick, hnp, h.nums, List.range_succ]
    · simpa [commitPick, hnp, dpSlot] using hnodup2
    · intro p hp
      simp only [commitPick, hnp, if_false] at hp ⊢
      rcases List.mem_append.mp hp with hp | hp
      · exact h.inCat p hp
      · rw [List.mem_singleton] at hp
        subst hp
        exact (inCatalogue_iff s.roster slot).mp hcat
    · intro _
      simp [commitPick, hnp, heq]

lemma draftInv_make_pick (s : ServerState) (mgr : String) (slot : SlotRef)
    (now budget : Nat) (h : DraftInv s) :
    DraftInv (draft_make_pick s mgr slot now budget).1 := by
  unfold draft_make_pick
  by_cases h1 : s.status = Status.active
  · by_cases h2 : slotDrafted s.picks slot = true
    · simp [h1, h2]
      exact h
    · by_cases h3 : snakeManager s.roster s.pick_number = some mgr
      · by_cases h4 : inCatalogue s.roster slot = true
        · simp only [h1, h2, h3, h4]
          simp only [ne_eq, not_true_eq_false, if_false, if_true, not_false_eq_true]
          exact draftInv_commit mgr slot now budget h h1
            (Bool.not_eq_true _ ▸ Bool.of_not_eq_true h2) h4
        · simp [h1, h2, h3, h4]
          exact h
      · simp [h1, h2, h3]
        exact h
  · simp [h1]
    exact h

lemma draftInv_autopick (s : ServerState) (now budget : Nat) (h : DraftInv s) :
    DraftInv (draft_autopick s now budget).1 := by
  unfold draft_autopick
  by_cases h1 : s.status = Status.active
  · cases hmgr : snakeManager s.roster s.pick_number with
    | none =>
      simp [h1, hmgr]
      exact h
    | some mgr =>
      cases hfind : (catalogue s.roster).find?
          (fun slot => decide ¬ slotDrafted s.picks slot = true) with
      | none =>
        simp [h1, hmgr, hfind]
        exact h
      | some slot =>
        have hund : slotDrafted s.picks slot = false := by
          have hp := List.find?_some hfind
          simpa using hp
        have hcat : inCatalogue s.roster slot = true :=
          (inCatalogue_iff s.roster slot).mpr (List.mem_of_find?_eq_some hfind)
        simp only [h1, hmgr, hfind, ne_eq, not_true_eq_false, if_false]
        exact draftInv_commit mgr slot now budget h h1 hund hcat
  · simp [h1]
    exact h

lemma draftInv_step {s s2 : ServerState} (h : Step s s2) (hinv : DraftInv s) :
    DraftInv s2 := by
  cases h with
  | startOp now budget => exact draftInv_start s now budget
  | pickOp mgr slot now budget => exact draftInv_make_pick s mgr slot now budget hinv
  | autoOp now budget => exact draftInv_autopick s now budget hinv

lemma draftInv_reach {s0 s : ServerState} (h : Reach s0 s) (hinv : DraftInv s0) :
    DraftInv s := by
  induction h with
  | refl => exact hinv
  | tail _ hstep ih => exact draftInv_step hstep ih

lemma commit_slotDrafted (s : ServerState) (mgr : String) (slot : SlotRef)
    (now budget : Nat) :
    slotDrafted (commitPick s mgr slot now budget).picks slot = true := by
  by_cases hnp : s.pick_number + 1 < totalPicks s.roster <;>
    simp [commitPick, hnp, slotDrafted, dpSlot]

/-- A concrete state one pick away from the end of a one-manager draft. -/
def sLastPick : ServerState :=
  { roster := ["a"], status := .active, pick_number := 6, pick_deadline := none, picks := [] }

/-- The slot drafted in the counterexample run. -/
def slotW0 : SlotRef := { owner := "a", cadence := .weekly, slot_index := 0 }

/-- Counterexample to C4 as stated: when the first successful call commits
the final pick, the draft moves to done and the identical second call is
rejected as draft-not-active, not as slot-already-drafted. -/
theorem pick_idempotence_counterexample :
    (draft_make_pick sLastPick "a" slotW0 0 0).2 = .ok
    ∧ draft_make_pick (draft_make_pick sLastPick "a" slotW0 0 0).1 "a" slotW0 0 0
        = ((draft_make_pick sLastPick "a" slotW0 0 0).1, .err .notActive)
    ∧ RpcResult.err .notActive ≠ .err .alreadyDrafted := by
  refine ⟨by decide, by decide, by decide⟩

/-- C4 amended: when a successful pick leaves the draft still active, the
identical second call is rejected as slot-already-drafted and changes
nothing; and in every draft (every state reachable from a start) a slot
appears in at most one committed pick. -/
theorem pick_idempotence :
    (∀ (s : ServerState) (mgr : String) (slot : SlotRef) (now budget : Nat)
      (s2 : ServerState) (now2 budget2 : Nat),
      draft_make_pick s mgr slot now budget = (s2, .ok) → s2.status = .active →
      draft_make_pick s2 mgr slot now2 budget2 = (s2, .err .alreadyDrafted))
    ∧ (∀ (s0 : ServerState) (now budget : Nat) (s : ServerState),
      Reach (draft_start s0 now budget) s → (s.picks.map dpSlot).Nodup) := by
  constructor
  · intro s mgr slot now budget s2 now2 budget2 hrun hact
    unfold draft_make_pick at hrun
    by_cases h1 : s.status = Status.active
    · by_cases h2 : slotDrafted s.picks slot = true
      · simp [h1, h2] at hrun
      · by_cases h3 : snakeManager s.roster s.pick_number = some mgr
        · by_cases h4 : inCatalogue s.roster slot = true
          · simp only [h1, h2, h3, h4, ne_eq, not_true_eq_false, if_false, if_true,
              not_false_eq_true, Bool.false_eq_true, Prod.mk.injEq] at hrun
            have hs2 : s2 = commitPick s mgr slot now budget := hrun.1.symm
            subst hs2
            simp [draft_make_pick, hact, commit_slotDrafted]
          · simp [h1, h2, h3, h4] at hrun
        · simp [h1, h2, h3] at hrun
    · simp [h1] at hrun
  · intro s0 now budget s hreach
    exact (draftInv_reach hreach (draftInv_start s0 now budget)).nodup

/-- A concrete mid-draft state for the C4 witness. -/
def sMid : ServerState :=
  { roster := ["a", "b"], status := .active, pick_number := 0, pick_deadline := none,
    picks := [] }

/-- Witness for C4 amended: after alex's first successful pick of a
two-manager draft, the identical repeat call is rejected as
slot-already-drafted, and the pick list of a freshly started draft has
pairwise distinct slots. -/
theorem pick_idempotence_witness :
    draft_make_pick (draft_make_pick sMid "a" slotW0 0 0).1 "a" slotW0 1 1
      = ((draft_make_pick sMid "a" slotW0 0 0).1, .err .alreadyDrafted)
    ∧ ((draft_start sMid 0 0).picks.map dpSlot).Nodup := by
  constructor
  · exact pick_idempotence.1 sMid "a" slotW0 0 0 (draft_make_pick sMid "a" slotW0 0 0).1
      1 1 (by decide) (by decide)
  · exact pick_idempotence.2 sMid 0 0 (draft_start sMid 0 0) Relation.ReflTransGen.refl

/-- C5: in any state a started draft can reach, once the status is done
the pick list has exactly roster_size * 7 entries whose pick numbers are
exactly 0 .. roster_size * 7 - 1 with no gaps or repeats and whose drafted
slots are pairwise distinct; and the per-manager total 7 is the sum of the
cadence capacities 3 + 2 + 2. -/
theorem total_pick_invariant :
    (∀ (s0 : ServerState) (now budget : Nat) (s : ServerState),
      Reach (draft_start s0 now budget) s → s.status = .done →
      s.picks.length = s.roster.length * PICKS_PER_MANAGER
      ∧ s.picks.map DraftPick.pick_number = List.range (s.roster.length * PICKS_PER_MANAGER)
      ∧ (s.picks.map dpSlot).Nodup)
    ∧ PICKS_PER_MANAGER =
        SLOT_COUNTS .weekly + SLOT_COUNTS .monthly + SLOT_COUNTS .yearly := by
  constructor
  · intro s0 now budget s hreach hdone
    have hinv := draftInv_reach hreach (draftInv_start s0 now budget)
    have htot : s.pick_number = s.roster.length * PICKS_PER_MANAGER :=
      hinv.doneTotal hdone
    have hnums := hinv.nums
    rw [htot] at hnums
    have hlen : s.picks.length = s.roster.length * PICKS_PER_MANAGER := by
      have hc := congrArg List.length hnums
      simpa using hc
    exact ⟨hlen, hnums, hinv.nodup⟩
  · decide

/-- A fresh one-manager draft for the C5 witness. -/
def wStart : ServerState :=
  draft_start
    { roster := ["a"], status := .not_started, pick_number := 0, pick_deadline := none,
      picks := [] } 0 0

/-- One autopick invocation for the C5 witness. -/
def wAuto (s : ServerState) : ServerState := (draft_autopick s 0 0).1

/-- The state of the one-manager draft after seven autopicks. -/
def wDone : ServerState :=
  wAuto (wAuto (wAuto (wAuto (wAuto (wAuto (wAuto wStart))))))

/-- Witness for C5: the one-manager draft reaches done after seven
autopicks and its pick list then has 1 * 7 entries. -/
theorem total_pick_invariant_witness :
    wDone.status = .done
    ∧ wDone.picks.length = wDone.roster.length * PICKS_PER_MANAGER := by
  have hreach : Reach wStart wDone := by
    refine Relation.ReflTransGen.tail (Relation.ReflTransGen.tail
      (Relation.ReflTransGen.tail (Relation.ReflTransGen.tail
        (Relation.ReflTransGen.tail (Relation.ReflTransGen.tail
          (Relation.ReflTransGen.tail Relation.ReflTransGen.refl
            (Step.autoOp wStart 0 0))
          (Step.autoOp (wAuto wStart) 0 0))
        (Step.autoOp (wAuto (wAuto wStart)) 0 0))
      (Step.autoOp (wAuto (wAuto (wAuto wStart))) 0 0))
      (Step.autoOp (wAuto (wAuto (wAuto (wAuto wStart)))) 0 0))
      (Step.autoOp (wAuto (wAuto (wAuto (wAuto (wAuto wStart))))) 0 0))
      (Step.autoOp (wAuto (wAuto (wAuto (wAuto (wAuto (wAuto wStart)))))) 0 0)
  have hdone : wDone.status = .done := by decide
  exact ⟨hdone, (total_pick_invariant.1 _ 0 0 wDone hreach hdone).1⟩

/-- C6: after the start operation on any prior state, the cursor is zero,
the status is active and the pick list is empty: start always discards
every previously committed pick. -/
theorem start_clean_slate (s : ServerState) (now budget : Nat) :
    (draft_start s now budget).pick_number = 0
    ∧ (draft_start s now budget).status = .active
    ∧ (draft_start s now budget).picks = [] :=
  ⟨rfl, rfl, rfl⟩

/-- C7: invoking autopick on a draft whose status is not active returns
the not-active error with the state unchanged, a successful autopick
implies the status was active, and the page's autopick button is disabled
whenever the status is not active. -/
theorem autopick_requires_active :
    (∀ (s : ServerState) (now budget : Nat), s.status ≠ .active →
      draft_autopick s now budget = (s, .err .notActive))
    ∧ (∀ (s : ServerState) (now budget : Nat),
      (draft_autopick s now budget).2 = .ok → s.status = .active)
    ∧ (∀ (pending : Option PendingKind) (state : Option DraftState),
      state.map (fun st => st.status) ≠ some Status.active →
      autopickDisabled pending state = true) := by
  refine ⟨?_, ?_, ?_⟩
  · intro s now budget h
    simp [draft_autopick, h]
  · intro s now budget h
    by_contra hs
    rw [show draft_autopick s now budget = (s, .err .notActive) from by
      simp [draft_autopick, hs]] at h
    simp at h
  · intro pending state h
    simp [autopickDisabled, h]

/-- A concrete not-started server state. -/
def sIdle : ServerState :=
  { roster := ["a"]
    status := .not_started
    pick_number := 0
    pick_deadline := none
    picks := [] }

/-- Witness for C7: autopick on a not-started draft is the not-active
error, and the button is disabled there. -/
theorem autopick_requires_active_witness :
    draft_autopick sIdle 5 5 = (sIdle, .err .notActive)
    ∧ autopickDisabled none
        (some { status := .not_started, pick_number := 0, pick_deadline := none }) = true := by
  constructor
  · exact autopick_requires_active.1 sIdle 5 5 (by decide)
  · exact autopick_requires_active.2.2 none _ (by decide)

/-- C9: a countdown tick only refreshes the displayed clock and never
touches the server state, whichever time it carries (a lapsed deadline
included); and any event that advances the pick cursor is a pick or an
autopick invocation — never the mere passage of time. -/
theorem deadline_advisory :
    (∀ (s : SysState) (t : Nat), sysStep s (.tick t) = { s with nowTick := t })
    ∧ (∀ (s : SysState) (t : Nat), (sysStep s (.tick t)).server = s.server)
    ∧ (∀ (s : SysState) (e : SysEvent),
      s.server.pick_number < (sysStep s e).server.pick_number →
      (∃ mgr slot now budget, e = .pickOp mgr slot now budget)
      ∨ (∃ now budget, e = .autoOp now budget)) := by
  refine ⟨fun s t => rfl, fun s t => rfl, ?_⟩
  intro s e h
  cases e with
  | tick t => simp [sysStep] at h
  | startOp now budget => simp [sysStep, draft_start] at h
  | pickOp mgr slot now budget => exact Or.inl ⟨mgr, slot, now, budget, rfl⟩
  | autoOp now budget => exact Or.inr ⟨now, budget, rfl⟩

/-- Witness for C9: the event that advanced a fresh active draft's cursor
is an autopick invocation. -/
theorem deadline_advisory_witness :
    (∃ mgr slot now budget,
      SysEvent.autoOp 0 0 = SysEvent.pickOp mgr slot now budget)
    ∨ (∃ now budget, SysEvent.autoOp 0 0 = SysEvent.autoOp now budget) :=
  deadline_advisory.2.2
    { server := { sIdle with status := .active }, nowTick := 0 }
    (.autoOp 0 0) (by decide)

/-- The roster-view entry of cadence `tf` at position `i`, given the list
`fl` of the manager's picks of that cadence in fill order: filled by the
i-th such pick when it exists, otherwise still open. -/
def segEntry (tasks : List TaskRow) (tf : Timeframe) (fl : List DraftPick)
    (i : Nat) : RosterEntry :=
  match fl[i]? with
  | some p =>
    { timeframe := tf
      roster_slot_index := i
      filled := true
      player_id := some p.drafted_user_id
      goal_title := some (lookupGoalTitle tasks p.drafted_user_id p.timeframe p.slot_index) }
  | none =>
    { timeframe := tf
      roster_slot_index := i
      filled := false
      player_id := none
      goal_title := none }

/-- The manager's picks of one cadence, in list order. -/
def tfPicks (ps : List DraftPick) (tf : Timeframe) : List DraftPick :=
  ps.filter (fun p => decide (p.timeframe = tf))

/-- The cadence-`tf` section of the roster view. -/
def seg (tasks : List TaskRow) (tf : Timeframe) (fl : List DraftPick) : List RosterEntry :=
  (List.range (SLOT_COUNTS tf)).map (segEntry tasks tf fl)

/-- The closed form of the roster view produced by filling the template
with the picks `ps` in order: per cadence, the first `SLOT_COUNTS`
matching picks fill the section positionally and the rest are ignored. -/
def buildRoster (ps : List DraftPick) (tasks : List TaskRow) : List RosterEntry :=
  seg tasks .weekly (tfPicks ps .weekly) ++ seg tasks .monthly (tfPicks ps .monthly)
    ++ seg tasks .yearly (tfPicks ps .yearly)

lemma segEntry_timeframe (tasks : List TaskRow) (tf : Timeframe) (fl : List DraftPick)
    (i : Nat) : (segEntry tasks tf fl i).timeframe = tf := by
  unfold segEntry
  cases fl[i]? <;> rfl

lemma mem_seg_timeframe {tasks : List TaskRow} {tf : Timeframe} {fl : List DraftPick}
    {e : RosterEntry} (he : e ∈ seg tasks tf fl) : e.timeframe = tf := by
  rcases List.mem_map.mp he with ⟨i, _, rfl⟩
  exact segEntry_timeframe tasks tf fl i

lemma fillSlot_skip (tasks : List TaskRow) (p : DraftPick) (l : List RosterEntry)
    (h : ∀ e ∈ l, ¬(e.timeframe = p.timeframe ∧ e.filled = false)) :
    fillSlot tasks l p = l := by
  induction l with
  | nil => rfl
  | cons e rest ih =>
    rw [fillSlot, if_neg (h e (List.mem_cons_self e rest)),
      ih (fun x hx => h x (List.mem_cons_of_mem e hx))]

lemma fillSlot_append_mismatch (tasks : List TaskRow) (p : DraftPick)
    (l1 l2 : List RosterEntry) (h1 : ∀ e ∈ l1, e.timeframe ≠ p.timeframe) :
    fillSlot tasks (l1 ++ l2) p = l1 ++ fillSlot tasks l2 p := by
  induction l1 with
  | nil => simp
  | cons e rest ih =>
    rw [List.cons_append, fillSlot,
      if_neg (fun hc => h1 e (List.mem_cons_self e rest) hc.1),
      ih (fun x hx => h1 x (List.mem_cons_of_mem e hx)), List.cons_append]

lemma fillSlot_append_last (tasks : List TaskRow) (p : DraftPick)
    (l1 l2 : List RosterEntry) (h2 : ∀ e ∈ l2, ¬(e.timeframe = p.timeframe ∧ e.filled = false)) :
    fillSlot tasks (l1 ++ l2) p = fillSlot tasks l1 p ++ l2 := by
  induction l1 with
  | nil => simpa [fillSlot] using fillSlot_skip tasks p l2 h2
  | cons e rest ih =>
    by_cases hc : e.timeframe = p.timeframe ∧ e.filled = false
    · rw [List.cons_append, fillSlot, if_pos hc, fillSlot, if_pos hc, List.cons_append]
    · rw [List.cons_append, fillSlot, if_neg hc, fillSlot, if_neg hc, ih, List.cons_append]

lemma segEntry_append_lt (tasks : List TaskRow) (tf : Timeframe) (fl : List DraftPick)
    (p : DraftPick) {i : Nat} (h : i < fl.length) :
    segEntry tasks tf (fl ++ [p]) i = segEntry tasks tf fl i := by
  unfold segEntry
  rw [List.getElem?_append, if_pos h]

lemma segEntry_append_gt (tasks : List TaskRow) (tf : Timeframe) (fl : List DraftPick)
    (p : DraftPick) {i : Nat} (h : fl.length < i) :
    segEntry tasks tf (fl ++ [p]) i = segEntry tasks tf fl i := by
  unfold segEntry
  rw [List.getElem?_eq_none (show fl.length ≤ i by omega),
    List.getElem?_eq_none (show (fl ++ [p]).length ≤ i by simp; omega)]

lemma fillSlot_seg_aux (tasks : List TaskRow) (tf : Timeframe) (p : DraftPick)
    (hp : p.timeframe = tf) (fl : List DraftPick) :
    ∀ (cap j : Nat), j ≤ fl.length →
      fillSlot tasks ((List.range' j cap).map (segEntry tasks tf fl)) p
        = (List.range' j cap).map (segEntry tasks tf (fl ++ [p])) := by
  intro cap
  induction cap with
  | zero => intro j _; rfl
  | succ c ih =>
    intro j hj
    rw [List.range'_succ, List.map_cons, List.map_cons]
    rcases Nat.lt_or_ge j fl.length with hlt | hge
    · have hq : fl[j]? = some fl[j] := List.getElem?_eq_getElem hlt
      have hfilled : (segEntry tasks tf fl j).filled = true := by
        unfold segEntry
        rw [hq]
      rw [fillSlot, if_neg (fun hc => by rw [hfilled] at hc; exact absurd hc.2 (by decide)),
        segEntry_append_lt tasks tf fl p hlt, ih (j + 1) hlt]
    · have hj2 : j = fl.length := by omega
      subst hj2
      have hnone : fl[fl.length]? = none := List.getElem?_eq_none (le_refl _)
      have hopen : segEntry tasks tf fl fl.length =
          { timeframe := tf
            roster_slot_index := fl.length
            filled := false
            player_id := none
            goal_title := none } := by
        unfold segEntry
        rw [hnone]
      have hcond : (segEntry tasks tf fl fl.length).timeframe = p.timeframe
          ∧ (segEntry tasks tf fl fl.length).filled = false := by
        rw [hopen]
        exact ⟨hp.symm, rfl⟩
      rw [fillSlot, if_pos hcond]
      have hhead : { segEntry tasks tf fl fl.length with
          filled := true
          player_id := some p.drafted_user_id
          goal_title :=
            some (lookupGoalTitle tasks p.drafted_user_id p.timeframe p.slot_index) }
          = segEntry tasks tf (fl ++ [p]) fl.length := by
        rw [hopen]
        unfold segEntry
        rw [List.getElem?_concat_length]
      rw [hhead]
      congr 1
      exact List.map_congr_left (fun i hi => by
        have : fl.length < i := by
          have := (List.mem_range'_1.mp hi).1
          omega
        exact (segEntry_append_gt tasks tf fl p this).symm)

lemma fillSlot_seg (tasks : List TaskRow) (tf : Timeframe) (p : DraftPick)
    (hp : p.timeframe = tf) (fl : List DraftPick) :
    fillSlot tasks (seg tasks tf fl) p = seg tasks tf (fl ++ [p]) := by
  unfold seg
  rw [List.range_eq_range']
  exact fillSlot_seg_aux tasks tf p hp fl (SLOT_COUNTS tf) 0 (Nat.zero_le _)

lemma tfPicks_append_match {p : DraftPick} {tf : Timeframe} (ps : List DraftPick)
    (hp : p.timeframe = tf) : tfPicks (ps ++ [p]) tf = tfPicks ps tf ++ [p] := by
  simp [tfPicks, List.filter_append, hp]

lemma tfPicks_append_mismatch {p : DraftPick} {tf : Timeframe} (ps : List DraftPick)
    (hp : p.timeframe ≠ tf) : tfPicks (ps ++ [p]) tf = tfPicks ps tf := by
  simp [tfPicks, List.filter_append, hp]

lemma fillSlot_buildRoster (tasks : List TaskRow) (ps : List DraftPick) (p : DraftPick) :
    fillSlot tasks (buildRoster ps tasks) p = buildRoster (ps ++ [p]) tasks := by
  cases htf : p.timeframe with
  | weekly =>
    have hMY : ∀ e ∈ seg tasks Timeframe.monthly (tfPicks ps Timeframe.monthly)
        ++ seg tasks Timeframe.yearly (tfPicks ps Timeframe.yearly),
        ¬(e.timeframe = p.timeframe ∧ e.filled = false) := by
      intro e he hc
      rcases List.mem_append.mp he with he | he <;>
        rw [mem_seg_timeframe he, htf] at hc <;> exact absurd hc.1 (by decide)
    unfold buildRoster
    rw [List.append_assoc (seg tasks Timeframe.weekly (tfPicks ps Timeframe.weekly)) _ _,
      List.append_assoc (seg tasks Timeframe.weekly (tfPicks (ps ++ [p]) Timeframe.weekly)) _ _,
      fillSlot_append_last tasks p _ _ hMY,
      fillSlot_seg tasks Timeframe.weekly p htf,
      tfPicks_append_match ps htf,
      tfPicks_append_mismatch ps (by rw [htf]; decide),
      tfPicks_append_mismatch ps (by rw [htf]; decide)]
  | monthly =>
    have hY : ∀ e ∈ seg tasks Timeframe.yearly (tfPicks ps Timeframe.yearly),
        ¬(e.timeframe = p.timeframe ∧ e.filled = false) := by
      intro e he hc
      rw [mem_seg_timeframe he, htf] at hc
      exact absurd hc.1 (by decide)
    have hW : ∀ e ∈ seg tasks Timeframe.weekly (tfPicks ps Timeframe.weekly),
        e.timeframe ≠ p.timeframe := by
      intro e he
      rw [mem_seg_timeframe he, htf]
      decide
    unfold buildRoster
    rw [fillSlot_append_last tasks p _ _ hY,
      fillSlot_append_mismatch tasks p _ _ hW,
      fillSlot_seg tasks Timeframe.monthly p htf,
      tfPicks_append_match ps htf,
      tfPicks_append_mismatch ps (by rw [htf]; decide),
      tfPicks_append_mismatch ps (by rw [htf]; decide)]
  | yearly =>
    have hWM : ∀ e ∈ seg tasks Timeframe.weekly (tfPicks ps Timeframe.weekly)
        ++ seg tasks Timeframe.monthly (tfPicks ps Timeframe.monthly),
        e.timeframe ≠ p.timeframe := by
      intro e he
      rcases List.mem_append.mp he with he | he <;>
        rw [mem_seg_timeframe he, htf] <;> decide
    unfold buildRoster
    rw [fillSlot_append_mismatch tasks p _ _ hWM,
      fillSlot_seg tasks Timeframe.yearly p htf,
      tfPicks_append_match ps htf,
      tfPicks_append_mismatch ps (by rw [htf]; decide),
      tfPicks_append_mismatch ps (by rw [htf]; decide)]

lemma buildRoster_nil (tasks : List TaskRow) : rosterTemplate = buildRoster [] tasks := rfl

lemma foldl_fillSlot (tasks : List TaskRow) :
    ∀ (l ps : List DraftPick),
      List.foldl (fillSlot tasks) (buildRoster ps tasks) l = buildRoster (ps ++ l) tasks := by
  intro l
  induction l with
  | nil => intro ps; simp
  | cons p rest ih =>
    intro ps
    rw [List.foldl_cons, fillSlot_buildRoster tasks ps p]
    have h := ih (ps ++ [p])
    rw [List.append_assoc, List.singleton_append] at h
    exact h

lemma myRoster_eq (picks : List DraftPick) (u : String) (tasks : List TaskRow) :
    myRoster picks u tasks = buildRoster (minePicks picks u) tasks := by
  unfold myRoster
  rw [buildRoster_nil tasks]
  have h := foldl_fillSlot tasks (minePicks picks u) []
  simpa using h

lemma seg_map_timeframe (tasks : List TaskRow) (tf : Timeframe) (fl : List DraftPick) :
    (seg tasks tf fl).map (fun e => e.timeframe) = List.replicate (SLOT_COUNTS tf) tf := by
  unfold seg
  rw [List.map_map]
  have h : ∀ i ∈ List.range (SLOT_COUNTS tf),
      ((fun e => e.timeframe) ∘ segEntry tasks tf fl) i = (fun _ => tf) i :=
    fun i _ => segEntry_timeframe tasks tf fl i
  rw [List.map_congr_left h, List.map_const', List.length_range]

/-- C10: for every pick list and active user, the derived roster view has
exactly 7 entries — three weekly, two monthly, two yearly, in that order —
and equals the closed form that fills each cadence section positionally
with the user's picks in ascending pick-number order, ignoring picks
beyond a cadence's capacity; the processed pick list is indeed ascending
in pick number. -/
theorem my_roster_shape (picks : List DraftPick) (u : String) (tasks : List TaskRow) :
    (myRoster picks u tasks).length = 7
    ∧ (myRoster picks u tasks).map (fun e => e.timeframe)
        = [Timeframe.weekly, .weekly, .weekly, .monthly, .monthly, .yearly, .yearly]
    ∧ myRoster picks u tasks = buildRoster (minePicks picks u) tasks
    ∧ List.Pairwise (fun a b => a.pick_number ≤ b.pick_number) (minePicks picks u) := by
  have heq := myRoster_eq picks u tasks
  refine ⟨?_, ?_, heq, ?_⟩
  · rw [heq]
    simp [buildRoster, seg, SLOT_COUNTS]
  · rw [heq]
    unfold buildRoster
    rw [List.map_append, List.map_append, seg_map_timeframe, seg_map_timeframe,
      seg_map_timeframe]
    decide
  · have h := @List.sorted_mergeSort DraftPick
      (fun a b : DraftPick => decide (a.pick_number ≤ b.pick_number))
      (fun a b c hab hbc => by
        simp only [decide_eq_true_eq] at *
        omega)
      (fun a b => by
        simp only [Bool.or_eq_true, decide_eq_true_eq]
        omega)
      (picks.filter (fun p => decide (p.manager_id = u)))
    exact List.Pairwise.imp (fun hx => by simpa using hx) h
